import Mathlib

/-!
Verification of the WakaTime telemetry relay
(`src/helix-view/src/handlers/wakatime.rs`).

The file shallowly embeds the handler: paths are lists of components of an
absolute path, the filesystem is a predicate on paths, the mpsc queue is a
list consumed in FIFO order, the HTTP transport is a function from the
request to its outcome, and `log::debug!` / `log::warn!` calls are recorded
as a list of log entries.  Rust `u32` casts are modelled as `% 2 ^ 32`.
-/

namespace Wakatime

/-- Paths are modelled as the component list of an absolute path, root
first; the editor hands the handler canonicalized absolute document paths,
so `["repo", "src", "main.rs"]` stands for `/repo/src/main.rs` and `[]`
for the filesystem root. -/
abbrev FsPath := List String

/-- View identifiers (`crate::ViewId`) are opaque; a numeric id suffices. -/
abbrev ViewId := Nat

/-- Rust `Path::file_name`: the last component; `none` at the root. -/
def fileName (p : FsPath) : Option String := p.getLast?

/-- Rust `path.to_string_lossy().to_string()` for an absolute path. -/
def pathToString (p : FsPath) : String :=
  p.foldl (fun acc c => acc ++ "/" ++ c) ""

/-- The marker set hard-coded in `get_project_name`. -/
def projectMarkers : List String :=
  [".git", ".hg", ".svn", "Cargo.toml", "package.json", "pyproject.toml"]

/-- Rust `parent.join(indicator).exists()` for any of the markers, over an
ambient filesystem `fs` (the set of existing paths). -/
def hasMarker (fs : FsPath → Bool) (dir : FsPath) : Bool :=
  projectMarkers.any (fun m => fs (dir ++ [m]))

/-- The `while let Some(parent) = current.parent()` loop of
`get_project_name`, run on the reversed component list (so taking the
parent is dropping the head).  When a marker is found in the parent the
Rust code returns `parent.file_name()` unconditionally, even when that is
`None` (the root); this is mirrored by returning `t.head?`, the reversed
parent's first component. -/
def goProject (fs : FsPath → Bool) : List String → Option String
  | [] => none
  | _ :: t => if hasMarker fs t.reverse then t.head? else goProject fs t

/-- Rust `get_project_name`: walk the ancestors of `path` outward and name
the project after the first directory containing a marker. -/
def get_project_name (fs : FsPath → Bool) (path : FsPath) : Option String :=
  goProject fs path.reverse

/-- Spec-side helper for the ancestor chain, on reversed component lists. -/
def ancestorsRev : List String → List (List String)
  | [] => []
  | _ :: t => t :: ancestorsRev t

/-- Spec-side: the ancestor directories of `p`, nearest first, ending at
the root. -/
def ancestors (p : FsPath) : List FsPath :=
  (ancestorsRev p.reverse).map List.reverse

/-- Spec-side: the first ancestor directory of `p` containing a marker,
following the claim's words. -/
def firstMarkedAncestor (fs : FsPath → Bool) (p : FsPath) : Option FsPath :=
  (ancestors p).find? (hasMarker fs)

/-- Modelled from the spec: `crate::editor::WakaTimeConfig` is declared in
`editor.rs`, outside the provided source; its fields are the configuration
surface the spec lists (`enabled`, `apiKey`, `apiUrl`, `timeoutSeconds`,
`project` override, `hideFileNames`, `hideProjectNames`) under the names
the handler code reads. -/
structure WakaTimeConfig where
  enabled : Bool
  api_key : Option String
  api_url : String
  timeout : Nat
  project : Option String
  hide_file_names : Bool
  hide_project_names : Bool
  deriving DecidableEq, Repr

/-- The slice of a language configuration the handler reads. -/
structure LanguageConfig where
  language_id : String
  deriving DecidableEq, Repr

/-- The host editor's `Document`, reduced to the narrow interface the
handler reads (the document model is an external collaborator per the
spec): `doc.path()`, `doc.language_config()`, `doc.text().len_lines()`,
`doc.selection(view).primary().cursor(text)` and
`doc.text().char_to_line(..)`. -/
structure Document where
  path : Option FsPath
  language_config : Option LanguageConfig
  len_lines : Nat
  cursor : ViewId → Nat
  char_to_line : Nat → Nat

/-- Rust `get_language_name`. -/
def get_language_name (doc : Document) : Option String :=
  doc.language_config.map (fun c => c.language_id)

/-- Timestamps are `f64` seconds in the source; no claim computes with
them, so they are carried opaquely, indexed by a natural number. -/
structure TimeF where
  raw : Nat
  deriving DecidableEq, Repr

/-- Rust `WakaTimeEntityType`. -/
inductive WakaTimeEntityType
  | File
  | Domain
  | App
  deriving DecidableEq, Repr

/-- Rust `WakaTimeCategory`. -/
inductive WakaTimeCategory
  | Coding
  | Building
  | Indexing
  | Debugging
  | Running
  | Testing
  | Manual
  | Writing
  | Designing
  | Researching
  deriving DecidableEq, Repr

/-- The `Display` impl for `WakaTimeEntityType`. -/
def WakaTimeEntityType.display : WakaTimeEntityType → String
  | .File => "file"
  | .Domain => "domain"
  | .App => "app"

/-- The `Display` impl for `WakaTimeCategory`. -/
def WakaTimeCategory.display : WakaTimeCategory → String
  | .Coding => "coding"
  | .Building => "building"
  | .Indexing => "indexing"
  | .Debugging => "debugging"
  | .Running => "running"
  | .Testing => "testing"
  | .Manual => "manual"
  | .Writing => "writing"
  | .Designing => "designing"
  | .Researching => "researching"

/-- Rust `WakaTimeEvent::Heartbeat` (the enum's single variant); the `u32`
fields hold values already reduced `% 2 ^ 32` at construction. -/
structure WakaTimeEvent where
  entity : String
  type_ : WakaTimeEntityType
  category : WakaTimeCategory
  time : TimeF
  project : Option String
  language : Option String
  is_write : Bool
  lines : Option Nat
  lineno : Option Nat
  cursorpos : Option Nat
  deriving DecidableEq, Repr

/-- Rust `send_document_heartbeat`.  The ambient filesystem `fs` (used by
`get_project_name`) and the wall clock `now` (`current_timestamp()`) are
explicit parameters; the returned `Option` is the event handed to
`sender.send` (`none` when the function returns early and enqueues
nothing).  The `as u32` casts become `% 2 ^ 32`. -/
def send_document_heartbeat (fs : FsPath → Bool) (doc : Document)
    (view_id : ViewId) (is_write : Bool) (wakatime_config : WakaTimeConfig)
    (now : TimeF) : Option WakaTimeEvent :=
  if !wakatime_config.enabled then none
  else match doc.path with
    | none => none
    | some path =>
      let entity := pathToString path
      let language := get_language_name doc
      let project :=
        match wakatime_config.project with
        | some p => some p
        | none => get_project_name fs path
      let lines := doc.len_lines % 2 ^ 32
      let cursor_pos := doc.cursor view_id
      let line_idx := doc.char_to_line cursor_pos
      some
        { entity := if wakatime_config.hide_file_names then "HIDDEN" else entity
          type_ := .File
          category := .Coding
          time := now
          project := if wakatime_config.hide_project_names then none else project
          language := language
          is_write := is_write
          lines := some lines
          lineno := some ((line_idx % 2 ^ 32 + 1) % 2 ^ 32)
          cursorpos := some (cursor_pos % 2 ^ 32) }

/-- JSON values as produced by the `json!` literal in
`Worker::process_event` (timestamps stay opaque). -/
inductive JValue
  | null
  | bool (b : Bool)
  | str (s : String)
  | nat (n : Nat)
  | time (t : TimeF)
  deriving DecidableEq, Repr

/-- Serde serialization of an `Option<String>` field: `None` is an
explicit JSON `null`. -/
def optStrJson : Option String → JValue
  | none => .null
  | some s => .str s

/-- Serde serialization of an `Option<u32>` field: `None` is an explicit
JSON `null`. -/
def optNatJson : Option Nat → JValue
  | none => .null
  | some n => .nat n

/-- The `json!` payload built in `Worker::process_event`, as the key/value
list of the JSON object, in source order. -/
def payload (event : WakaTimeEvent) : List (String × JValue) :=
  [("entity", .str event.entity),
   ("type", .str event.type_.display),
   ("category", .str event.category.display),
   ("time", .time event.time),
   ("project", optStrJson event.project),
   ("language", optStrJson event.language),
   ("is_write", .bool event.is_write),
   ("lines", optNatJson event.lines),
   ("lineno", optNatJson event.lineno),
   ("cursorpos", optNatJson event.cursorpos)]

/-- Levels of the `log` calls the worker makes. -/
inductive LogLevel
  | debug
  | warn
  deriving DecidableEq, Repr

/-- One `log::debug!` or `log::warn!` call. -/
structure LogEntry where
  level : LogLevel
  msg : String
  deriving DecidableEq, Repr

/-- The HTTP POST the worker builds: url, headers, timeout and JSON
body. -/
structure HttpRequest where
  url : String
  authorization : String
  content_type : String
  user_agent : String
  timeout : Nat
  body : List (String × JValue)
  deriving DecidableEq, Repr

/-- Outcome of `client.post(..).send().await`: a response with a status
code, or a transport error. -/
inductive SendResult
  | ok (status : Nat)
  | err (msg : String)
  deriving DecidableEq, Repr

/-- Rust `StatusCode::is_success` (2xx). -/
def isSuccess (status : Nat) : Bool :=
  200 ≤ status && status ≤ 299

/-- Everything observable about one `Worker::process_event` call: the log
entries it emits and the HTTP request it issues, if any. -/
structure ProcessOutcome where
  logs : List LogEntry
  request : Option HttpRequest
  deriving DecidableEq, Repr

/-- Rust `Worker::process_event`, compiled with the `wakatime` feature and
with the client present (`Worker::run` installs it before the loop).  The
configuration snapshot read from the shared cell and the HTTP transport
are explicit parameters. -/
def processEvent (cfg : Option WakaTimeConfig)
    (transport : HttpRequest → SendResult) (event : WakaTimeEvent) :
    ProcessOutcome :=
  match cfg with
  | none =>
    { logs := [{ level := .debug,
                 msg := "WakaTime config not available, skipping event" }]
      request := none }
  | some config =>
    if !config.enabled then { logs := [], request := none }
    else match config.api_key with
      | none =>
        { logs := [{ level := .warn, msg := "WakaTime API key not configured" }]
          request := none }
      | some api_key =>
        let req : HttpRequest :=
          { url := config.api_url
            authorization := "Bearer " ++ api_key
            content_type := "application/json"
            user_agent := "helix-editor"
            timeout := config.timeout
            body := payload event }
        match transport req with
        | .ok status =>
          if isSuccess status then
            { logs := [{ level := .debug,
                         msg := "WakaTime heartbeat sent successfully" }]
              request := some req }
          else
            { logs := [{ level := .warn,
                         msg := "WakaTime API returned status: " ++ toString status }]
              request := some req }
        | .err e =>
          { logs := [{ level := .warn,
                       msg := "Failed to send WakaTime heartbeat: " ++ e }]
            request := some req }

/-- Rust `Worker::run`: the `while let Some(event) = receiver.recv()` loop
over the queue contents (head = oldest), awaiting `process_event` on each
record in turn before receiving the next. -/
def run (cfg : Option WakaTimeConfig) (transport : HttpRequest → SendResult) :
    List WakaTimeEvent → List ProcessOutcome
  | [] => []
  | e :: rest => processEvent cfg transport e :: run cfg transport rest

/-- The slice of the host `Editor` the `DocumentDidOpen` hook closure
reads: the document map, the focused view, and `config().wakatime`. -/
structure Editor where
  documents : List (Nat × Document)
  focus : ViewId
  wakatime : WakaTimeConfig

/-- The closure `register_hooks` installs for `DocumentDidOpen`:
`event.editor.documents.get(&event.doc).unwrap()` panics when the document
id is absent, modelled as `Except.error`; otherwise the heartbeat is
produced by `send_document_heartbeat` with `is_write = false` and the
focused view. -/
def documentDidOpenHook (fs : FsPath → Bool) (editor : Editor)
    (doc_id : Nat) (now : TimeF) : Except String (Option WakaTimeEvent) :=
  match editor.documents.lookup doc_id with
  | none => .error "called Option::unwrap on a None value"
  | some doc =>
    .ok (send_document_heartbeat fs doc editor.focus false editor.wakatime now)

/-- An empty filesystem. -/
def fs0 : FsPath → Bool := fun _ => false

/-- A filesystem in which exactly `/repo/.git` exists. -/
def gitFs : FsPath → Bool := fun p => p == ["repo", ".git"]

/-- A fixed timestamp. -/
def t0 : TimeF := { raw := 0 }

/-- An enabled configuration with an API key and no redaction. -/
def cfgOn : WakaTimeConfig :=
  { enabled := true
    api_key := some "waka_key"
    api_url := "https://api.wakatime.com/api/v1/users/current/heartbeats"
    timeout := 30
    project := none
    hide_file_names := false
    hide_project_names := false }

/-- Configuration `cfgOn` with tracking disabled. -/
def cfgOff : WakaTimeConfig := { cfgOn with enabled := false }

/-- Configuration `cfgOn` without an API key. -/
def cfgNoKey : WakaTimeConfig := { cfgOn with api_key := none }

/-- A transport that always answers 201. -/
def tr0 : HttpRequest → SendResult := fun _ => .ok 201

/-- A concrete heartbeat event. -/
def ev0 : WakaTimeEvent :=
  { entity := "/tmp/a.rs"
    type_ := .File
    category := .Coding
    time := t0
    project := none
    language := none
    is_write := false
    lines := some 1
    lineno := some 1
    cursorpos := some 0 }

/-- The spec's worked example: 120 lines, primary cursor at character
offset 345 on line index 9, backing file `/tmp/file.rs`. -/
def exampleDoc : Document :=
  { path := some ["tmp", "file.rs"]
    language_config := none
    len_lines := 120
    cursor := fun _ => 345
    char_to_line := fun _ => 9 }

/-- The heartbeat `send_document_heartbeat` produces for `exampleDoc`
under `cfgOn` at `t0`. -/
def exampleEv : WakaTimeEvent :=
  { entity := "/tmp/file.rs"
    type_ := .File
    category := .Coding
    time := t0
    project := none
    language := none
    is_write := false
    lines := some 120
    lineno := some 10
    cursorpos := some 345 }

/-- A document without a backing file path. -/
def noPathDoc : Document :=
  { path := none
    language_config := none
    len_lines := 0
    cursor := fun _ => 0
    char_to_line := fun _ => 0 }

/-- A document whose line count is exactly `2 ^ 32` (the smallest count
the `as u32` cast truncates). -/
def bigDoc : Document :=
  { path := some ["tmp", "big.log"]
    language_config := none
    len_lines := 2 ^ 32
    cursor := fun _ => 0
    char_to_line := fun _ => 0 }

/-- An editor whose document map is empty. -/
def emptyEditor : Editor :=
  { documents := [], focus := 0, wakatime := cfgOn }

/-- Configuration `cfgOn` with file-name hiding enabled. -/
def cfgHide : WakaTimeConfig := { cfgOn with hide_file_names := true }

/-- Configuration `cfgOn` with project-name hiding enabled. -/
def cfgHideProj : WakaTimeConfig := { cfgOn with hide_project_names := true }

/-- Configuration `cfgOn` with the project override set. -/
def cfgProj : WakaTimeConfig := { cfgOn with project := some "helix" }

/-- The heartbeat produced for `exampleDoc` under `cfgHide`. -/
def evHidden : WakaTimeEvent := { exampleEv with entity := "HIDDEN" }

/-- The heartbeat produced for `exampleDoc` under `cfgProj`. -/
def evProj : WakaTimeEvent := { exampleEv with project := some "helix" }

/-- A Rust document under `/repo` (where `gitFs` has `/repo/.git`). -/
def repoDoc : Document :=
  { path := some ["repo", "src", "main.rs"]
    language_config := some { language_id := "rust" }
    len_lines := 10
    cursor := fun _ => 5
    char_to_line := fun _ => 2 }

/-- The heartbeat produced for `repoDoc` under `cfgHideProj`. -/
def evHiddenProj : WakaTimeEvent :=
  { entity := "/repo/src/main.rs"
    type_ := .File
    category := .Coding
    time := t0
    project := none
    language := some "rust"
    is_write := false
    lines := some 10
    lineno := some 3
    cursorpos := some 5 }

/-- A heartbeat with every optional field absent. -/
def evAllNone : WakaTimeEvent :=
  { entity := "/x"
    type_ := .File
    category := .Coding
    time := t0
    project := none
    language := none
    is_write := false
    lines := none
    lineno := none
    cursorpos := none }

/-- The `get_project_name` loop equals a first-match search over the
ancestor chain (on reversed component lists). -/
lemma goProject_eq (fs : FsPath → Bool) : ∀ l : List String,
    goProject fs l =
      (((ancestorsRev l).map List.reverse).find? (hasMarker fs)).bind fileName := by
  intro l
  induction l with
  | nil => rfl
  | cons x t ih =>
    by_cases h : hasMarker fs t.reverse
    · simp [goProject, ancestorsRev, h, List.find?_cons_of_pos, fileName,
        List.getLast?_reverse]
    · simp [goProject, ancestorsRev, h, List.find?_cons_of_neg, ih]

/-- Folding path components onto an accumulator only ever appends. -/
lemma foldl_slash_data (l : List String) : ∀ acc : String,
    ∃ ds : List Char,
      (l.foldl (fun a c => a ++ "/" ++ c) acc).data = acc.data ++ ds := by
  induction l with
  | nil => intro acc; exact ⟨[], by simp⟩
  | cons c t ih =>
    intro acc
    obtain ⟨ds, hds⟩ := ih (acc ++ "/" ++ c)
    refine ⟨('/' :: c.data) ++ ds, ?_⟩
    simp only [List.foldl, hds, String.data_append]
    simp

/-- A rendered absolute path is empty or starts with a slash, so it never
equals the sentinel `"HIDDEN"`. -/
lemma pathToString_ne_hidden (p : FsPath) : pathToString p ≠ "HIDDEN" := by
  cases p with
  | nil => decide
  | cons c t =>
    intro hEq
    obtain ⟨ds, hds⟩ := foldl_slash_data t ("" ++ "/" ++ c)
    have hdata : ("HIDDEN" : String).data = ("" ++ "/" ++ c).data ++ ds := by
      rw [← hEq]
      exact hds
    have hhead : ("HIDDEN" : String).data.head? = some '/' := by
      rw [hdata]
      simp [String.data_append]
    have hH : ("HIDDEN" : String).data.head? = some 'H' := rfl
    rw [hH] at hhead
    exact absurd (Option.some.inj hhead) (by decide)

/-- Looking up `project` in the payload yields the serialized `project`
field. -/
lemma payload_lookup_project (ev : WakaTimeEvent) :
    List.lookup "project" (payload ev) = some (optStrJson ev.project) := rfl

/-- Looking up `language` in the payload yields the serialized `language`
field. -/
lemma payload_lookup_language (ev : WakaTimeEvent) :
    List.lookup "language" (payload ev) = some (optStrJson ev.language) := rfl

/-- Looking up `lines` in the payload yields the serialized `lines`
field. -/
lemma payload_lookup_lines (ev : WakaTimeEvent) :
    List.lookup "lines" (payload ev) = some (optNatJson ev.lines) := rfl

/-- Looking up `lineno` in the payload yields the serialized `lineno`
field. -/
lemma payload_lookup_lineno (ev : WakaTimeEvent) :
    List.lookup "lineno" (payload ev) = some (optNatJson ev.lineno) := rfl

/-- Looking up `cursorpos` in the payload yields the serialized
`cursorpos` field. -/
lemma payload_lookup_cursorpos (ev : WakaTimeEvent) :
    List.lookup "cursorpos" (payload ev) = some (optNatJson ev.cursorpos) := rfl

/-- C1 (counterexample): a record dequeued under a configuration with
`enabled = false` (and an API key present) is discarded with NO log entry
at all, refuting the claim that the worker logs at debug/warn level in
that case; no HTTP request is issued. -/
theorem wakatime_C1_cex :
    processEvent (some cfgOff) tr0 ev0 = { logs := [], request := none } := rfl

/-- C1 (amended): if no configuration is present the worker logs at debug
level and discards the record; if the configuration's enabled flag is
false it discards the record silently (no log); if no API key is present
it logs at warn level and discards; in all three cases no HTTP request is
issued, and for all configurations with `enabled = false` no HTTP request
is ever issued regardless of queue contents. -/
theorem wakatime_C1_amended :
    ∀ (tr : HttpRequest → SendResult) (ev : WakaTimeEvent),
      (processEvent none tr ev =
        { logs := [{ level := .debug,
                     msg := "WakaTime config not available, skipping event" }]
          request := none })
    ∧ (∀ c : WakaTimeConfig, c.enabled = false →
        processEvent (some c) tr ev = { logs := [], request := none })
    ∧ (∀ c : WakaTimeConfig, c.enabled = true → c.api_key = none →
        processEvent (some c) tr ev =
          { logs := [{ level := .warn, msg := "WakaTime API key not configured" }]
            request := none })
    ∧ (∀ (c : WakaTimeConfig) (evs : List WakaTimeEvent), c.enabled = false →
        (run (some c) tr evs).map ProcessOutcome.request =
          evs.map (fun _ => (none : Option HttpRequest))) := by
  intro tr ev
  refine ⟨rfl, ?_, ?_, ?_⟩
  · intro c hc
    simp [processEvent, hc]
  · intro c hc hk
    simp [processEvent, hc, hk]
  · intro c evs hc
    induction evs with
    | nil => rfl
    | cons e rest ih => simp [run, processEvent, hc, ih]

/-- C1 (witness): concrete instances of the amended statement: disabled
configuration (silent discard, no request), missing API key (warn log, no
request), and a non-empty queue under a disabled configuration issuing no
requests. -/
theorem wakatime_C1_witness :
    processEvent (some cfgOff) tr0 ev0 = { logs := [], request := none }
  ∧ processEvent (some cfgNoKey) tr0 ev0 =
      { logs := [{ level := .warn, msg := "WakaTime API key not configured" }]
        request := none }
  ∧ (run (some cfgOff) tr0 [ev0, ev0]).map ProcessOutcome.request = [none, none] := by
  refine ⟨(wakatime_C1_amended tr0 ev0).2.1 cfgOff rfl,
          (wakatime_C1_amended tr0 ev0).2.2.1 cfgNoKey rfl rfl, ?_⟩
  have h := (wakatime_C1_amended tr0 ev0).2.2.2 cfgOff [ev0, ev0] rfl
  simpa using h

/-- C2: the worker loop consumes the queue strictly sequentially in FIFO
order: the list of per-record outcomes is exactly the map of
`processEvent` over the queue (so record N's outcome, success, non-2xx or
transport error alike, never changes whether or how record N+1 is
processed), every queued record yields exactly one dispatch outcome, and
after each record the loop continues with the rest of the queue. -/
theorem wakatime_C2_fifo :
    (∀ (cfg : Option WakaTimeConfig) (tr : HttpRequest → SendResult)
       (evs : List WakaTimeEvent),
       run cfg tr evs = evs.map (processEvent cfg tr))
  ∧ (∀ (cfg : Option WakaTimeConfig) (tr : HttpRequest → SendResult)
       (evs : List WakaTimeEvent),
       (run cfg tr evs).length = evs.length)
  ∧ (∀ (cfg : Option WakaTimeConfig) (tr : HttpRequest → SendResult)
       (e : WakaTimeEvent) (rest : List WakaTimeEvent),
       run cfg tr (e :: rest) = processEvent cfg tr e :: run cfg tr rest) := by
  have hmap : ∀ (cfg : Option WakaTimeConfig) (tr : HttpRequest → SendResult)
      (evs : List WakaTimeEvent), run cfg tr evs = evs.map (processEvent cfg tr) := by
    intro cfg tr evs
    induction evs with
    | nil => rfl
    | cons e rest ih => simp [run, ih]
  exact ⟨hmap, fun cfg tr evs => by rw [hmap]; simp, fun _ _ _ _ => rfl⟩

/-- C3: the `DocumentDidOpen` hook closure calls
`documents.get(&event.doc).unwrap()`, so on an editor whose document map
does not contain the opened document id the hook panics (modelled as
`Except.error`), contradicting the claim that a missing document never
makes the hook panic. -/
theorem wakatime_C3_unwrap_panics :
    documentDidOpenHook fs0 emptyEditor 0 t0 =
      .error "called Option::unwrap on a None value" := rfl

/-- C4: when the document has no backing path or the configuration is
disabled, `send_document_heartbeat` enqueues nothing (no record is
built). -/
theorem wakatime_C4_gating :
    ∀ (fs : FsPath → Bool) (doc : Document) (v : ViewId) (iw : Bool)
      (cfg : WakaTimeConfig) (now : TimeF),
      doc.path = none ∨ cfg.enabled = false →
      send_document_heartbeat fs doc v iw cfg now = none := by
  intro fs doc v iw cfg now h
  rcases h with h | h
  · cases hE : cfg.enabled <;> simp [send_document_heartbeat, hE, h]
  · simp [send_document_heartbeat, h]

/-- C4 (witness): a pathless document under an enabled configuration, and
a backed document under a disabled configuration, both enqueue nothing. -/
theorem wakatime_C4_witness :
    send_document_heartbeat fs0 noPathDoc 0 false cfgOn t0 = none
  ∧ send_document_heartbeat fs0 exampleDoc 0 false cfgOff t0 = none :=
  ⟨wakatime_C4_gating fs0 noPathDoc 0 false cfgOn t0 (Or.inl rfl),
   wakatime_C4_gating fs0 exampleDoc 0 false cfgOff t0 (Or.inr rfl)⟩

/-- C5: under `hide_file_names = true` every produced record's entity is
the fixed sentinel `"HIDDEN"`, and, document paths being absolute, it
never equals the document's real file path. -/
theorem wakatime_C5_hide_file_names :
    ∀ (fs : FsPath → Bool) (doc : Document) (v : ViewId) (iw : Bool)
      (cfg : WakaTimeConfig) (now : TimeF) (ev : WakaTimeEvent),
      cfg.hide_file_names = true →
      send_document_heartbeat fs doc v iw cfg now = some ev →
      ev.entity = "HIDDEN" ∧ ∀ p, doc.path = some p → ev.entity ≠ pathToString p := by
  intro fs doc v iw cfg now ev hHide hsend
  cases hE : cfg.enabled
  · simp [send_document_heartbeat, hE] at hsend
  · cases hP : doc.path with
    | none => simp [send_document_heartbeat, hE, hP] at hsend
    | some path =>
      simp [send_document_heartbeat, hE, hP, hHide] at hsend
      obtain rfl := hsend
      refine ⟨rfl, ?_⟩
      intro p hp
      obtain rfl := Option.some.inj hp
      exact (pathToString_ne_hidden path).symm

/-- C5 (witness): the record produced for `exampleDoc` under `cfgHide` has
entity `"HIDDEN"`, different from the rendered real path. -/
theorem wakatime_C5_witness :
    evHidden.entity = "HIDDEN" ∧ evHidden.entity ≠ pathToString ["tmp", "file.rs"] := by
  obtain ⟨h1, h2⟩ :=
    wakatime_C5_hide_file_names fs0 exampleDoc 0 false cfgHide t0 evHidden rfl (by decide)
  exact ⟨h1, h2 ["tmp", "file.rs"] rfl⟩

/-- C6: under `hide_project_names = true` every produced record's project
field is `none`, and it is serialized as an explicit JSON `null`. -/
theorem wakatime_C6_hide_project :
    ∀ (fs : FsPath → Bool) (doc : Document) (v : ViewId) (iw : Bool)
      (cfg : WakaTimeConfig) (now : TimeF) (ev : WakaTimeEvent),
      cfg.hide_project_names = true →
      send_document_heartbeat fs doc v iw cfg now = some ev →
      ev.project = none ∧ List.lookup "project" (payload ev) = some JValue.null := by
  intro fs doc v iw cfg now ev hHide hsend
  cases hE : cfg.enabled
  · simp [send_document_heartbeat, hE] at hsend
  · cases hP : doc.path with
    | none => simp [send_document_heartbeat, hE, hP] at hsend
    | some path =>
      simp [send_document_heartbeat, hE, hP, hHide] at hsend
      obtain rfl := hsend
      exact ⟨rfl, rfl⟩

/-- C6 (witness): under `cfgHideProj`, the record produced for `repoDoc`
(whose project "repo" would be inferred from `/repo/.git`) has project
`none`, serialized as an explicit `null`. -/
theorem wakatime_C6_witness :
    evHiddenProj.project = none
  ∧ List.lookup "project" (payload evHiddenProj) = some JValue.null :=
  wakatime_C6_hide_project gitFs repoDoc 0 false cfgHideProj t0 evHiddenProj rfl (by decide)

/-- C7: `get_project_name` returns the file name of the first ancestor
directory containing a marker (absent when that ancestor is the root); on
`/repo/src/pkg/file.rs` with `/repo/.git` existing it returns `"repo"`;
and it returns absent when no ancestor up to the root contains a
marker. -/
theorem wakatime_C7_project_inference :
    (∀ (fs : FsPath → Bool) (p : FsPath),
       get_project_name fs p = (firstMarkedAncestor fs p).bind fileName)
  ∧ get_project_name gitFs ["repo", "src", "pkg", "file.rs"] = some "repo"
  ∧ (∀ (fs : FsPath → Bool) (p : FsPath),
       (∀ a ∈ ancestors p, hasMarker fs a = false) →
       get_project_name fs p = none) := by
  have hmain : ∀ (fs : FsPath → Bool) (p : FsPath),
      get_project_name fs p = (firstMarkedAncestor fs p).bind fileName :=
    fun fs p => goProject_eq fs p.reverse
  refine ⟨hmain, by decide, ?_⟩
  intro fs p hnone
  rw [hmain]
  have hfind : firstMarkedAncestor fs p = none := by
    apply List.find?_eq_none.mpr
    intro a ha
    simp [hnone a ha]
  rw [hfind]
  rfl

/-- C7 (witness): on a path none of whose ancestors contains a marker,
inference returns absent. -/
theorem wakatime_C7_witness : get_project_name fs0 ["a", "b"] = none :=
  wakatime_C7_project_inference.2.2 fs0 ["a", "b"] (by decide)

/-- C8: the serialized JSON body has exactly the keys `entity`, `type`,
`category`, `time`, `project`, `language`, `is_write`, `lines`, `lineno`,
`cursorpos` (in source order), and each absent optional field is present
with an explicit `null` value, never omitted. -/
theorem wakatime_C8_payload :
    ∀ ev : WakaTimeEvent,
      (payload ev).map Prod.fst =
        ["entity", "type", "category", "time", "project", "language",
         "is_write", "lines", "lineno", "cursorpos"]
    ∧ (ev.project = none → List.lookup "project" (payload ev) = some JValue.null)
    ∧ (ev.language = none → List.lookup "language" (payload ev) = some JValue.null)
    ∧ (ev.lines = none → List.lookup "lines" (payload ev) = some JValue.null)
    ∧ (ev.lineno = none → List.lookup "lineno" (payload ev) = some JValue.null)
    ∧ (ev.cursorpos = none → List.lookup "cursorpos" (payload ev) = some JValue.null) := by
  intro ev
  refine ⟨rfl, fun h => ?_, fun h => ?_, fun h => ?_, fun h => ?_, fun h => ?_⟩
  · rw [payload_lookup_project, h]
    rfl
  · rw [payload_lookup_language, h]
    rfl
  · rw [payload_lookup_lines, h]
    rfl
  · rw [payload_lookup_lineno, h]
    rfl
  · rw [payload_lookup_cursorpos, h]
    rfl

/-- C8 (witness): a record with every optional field absent serializes all
five of them as explicit `null`s, under the exact key list. -/
theorem wakatime_C8_witness :
    (payload evAllNone).map Prod.fst =
      ["entity", "type", "category", "time", "project", "language",
       "is_write", "lines", "lineno", "cursorpos"]
  ∧ List.lookup "project" (payload evAllNone) = some JValue.null
  ∧ List.lookup "language" (payload evAllNone) = some JValue.null
  ∧ List.lookup "lines" (payload evAllNone) = some JValue.null
  ∧ List.lookup "lineno" (payload evAllNone) = some JValue.null
  ∧ List.lookup "cursorpos" (payload evAllNone) = some JValue.null :=
  ⟨(wakatime_C8_payload evAllNone).1,
   (wakatime_C8_payload evAllNone).2.1 rfl,
   (wakatime_C8_payload evAllNone).2.2.1 rfl,
   (wakatime_C8_payload evAllNone).2.2.2.1 rfl,
   (wakatime_C8_payload evAllNone).2.2.2.2.1 rfl,
   (wakatime_C8_payload evAllNone).2.2.2.2.2 rfl⟩

/-- C9 (counterexample): the `as u32` casts truncate: a document with
exactly `2 ^ 32` lines produces a record whose `lines` field is `some 0`,
not the document's total line count. -/
theorem wakatime_C9_cex :
    (send_document_heartbeat fs0 bigDoc 0 false cfgOn t0).map WakaTimeEvent.lines
      = some (some 0)
  ∧ bigDoc.len_lines = 2 ^ 32 := ⟨by decide, rfl⟩

/-- C9 (amended): every produced record carries `lines`, `lineno` and
`cursorpos` reduced modulo `2 ^ 32` (the Rust `as u32` casts); whenever
the line count, cursor offset and successor of the cursor's line index are
below `2 ^ 32` — every realistic document — they equal the document's
total line count, the 0-indexed cursor line plus one, and the cursor's
0-indexed character offset, exactly as the claim states. -/
theorem wakatime_C9_amended :
    ∀ (fs : FsPath → Bool) (doc : Document) (v : ViewId) (iw : Bool)
      (cfg : WakaTimeConfig) (now : TimeF) (ev : WakaTimeEvent),
      send_document_heartbeat fs doc v iw cfg now = some ev →
        ev.lines = some (doc.len_lines % 2 ^ 32)
      ∧ ev.lineno = some ((doc.char_to_line (doc.cursor v) + 1) % 2 ^ 32)
      ∧ ev.cursorpos = some (doc.cursor v % 2 ^ 32)
      ∧ (doc.len_lines < 2 ^ 32 → ev.lines = some doc.len_lines)
      ∧ (doc.char_to_line (doc.cursor v) + 1 < 2 ^ 32 →
          ev.lineno = some (doc.char_to_line (doc.cursor v) + 1))
      ∧ (doc.cursor v < 2 ^ 32 → ev.cursorpos = some (doc.cursor v)) := by
  intro fs doc v iw cfg now ev hsend
  cases hE : cfg.enabled
  · simp [send_document_heartbeat, hE] at hsend
  · cases hP : doc.path with
    | none => simp [send_document_heartbeat, hE, hP] at hsend
    | some path =>
      simp [send_document_heartbeat, hE, hP] at hsend
      obtain rfl := hsend
      refine ⟨rfl, rfl, rfl, ?_, ?_, ?_⟩
      · intro h
        show some (doc.len_lines % 2 ^ 32) = some doc.len_lines
        exact congrArg some (Nat.mod_eq_of_lt h)
      · intro h
        show some ((doc.char_to_line (doc.cursor v) + 1) % 2 ^ 32) =
          some (doc.char_to_line (doc.cursor v) + 1)
        exact congrArg some (Nat.mod_eq_of_lt h)
      · intro h
        show some (doc.cursor v % 2 ^ 32) = some (doc.cursor v)
        exact congrArg some (Nat.mod_eq_of_lt h)

/-- C9 (witness): the spec's worked example: 120 lines, cursor at offset
345 on line index 9, yields `lines = 120`, `lineno = 10`,
`cursorpos = 345`. -/
theorem wakatime_C9_witness :
    exampleEv.lines = some 120 ∧ exampleEv.lineno = some 10
  ∧ exampleEv.cursorpos = some 345 := by
  obtain ⟨-, -, -, h4, h5, h6⟩ :=
    wakatime_C9_amended fs0 exampleDoc 0 false cfgOn t0 exampleEv (by decide)
  exact ⟨h4 (by decide), h5 (by decide), h6 (by decide)⟩

/-- C10: when the configuration's project override is set and
`hide_project_names` is false, every produced record carries exactly the
override; and with the override set the result does not depend on the
filesystem at all (inference is never consulted). -/
theorem wakatime_C10_override :
    (∀ (fs : FsPath → Bool) (doc : Document) (v : ViewId) (iw : Bool)
       (cfg : WakaTimeConfig) (now : TimeF) (p : String) (ev : WakaTimeEvent),
       cfg.project = some p → cfg.hide_project_names = false →
       send_document_heartbeat fs doc v iw cfg now = some ev →
       ev.project = some p)
  ∧ (∀ (fs fs' : FsPath → Bool) (doc : Document) (v : ViewId) (iw : Bool)
       (cfg : WakaTimeConfig) (now : TimeF) (p : String),
       cfg.project = some p →
       send_document_heartbeat fs doc v iw cfg now =
         send_document_heartbeat fs' doc v iw cfg now) := by
  constructor
  · intro fs doc v iw cfg now p ev hProj hHide hsend
    cases hE : cfg.enabled
    · simp [send_document_heartbeat, hE] at hsend
    · cases hP : doc.path with
      | none => simp [send_document_heartbeat, hE, hP] at hsend
      | some path =>
        simp [send_document_heartbeat, hE, hP, hProj, hHide] at hsend
        obtain rfl := hsend
        rfl
  · intro fs fs' doc v iw cfg now p hProj
    cases hE : cfg.enabled
    · simp [send_document_heartbeat, hE]
    · cases hP : doc.path with
      | none => simp [send_document_heartbeat, hE, hP]
      | some path => simp [send_document_heartbeat, hE, hP, hProj]

/-- C10 (witness): under `cfgProj` the produced record's project is the
override `"helix"`, and the result is the same over a filesystem with
`/repo/.git` as over an empty one. -/
theorem wakatime_C10_witness :
    evProj.project = some "helix"
  ∧ send_document_heartbeat gitFs exampleDoc 0 false cfgProj t0 =
      send_document_heartbeat fs0 exampleDoc 0 false cfgProj t0 :=
  ⟨wakatime_C10_override.1 fs0 exampleDoc 0 false cfgProj t0 "helix" evProj rfl rfl
     (by decide),
   wakatime_C10_override.2 gitFs fs0 exampleDoc 0 false cfgProj t0 "helix" rfl⟩

end Wakatime
